import Mathlib

/-!
# Verification of the ecrl evaluation harness

Shallow embedding of the accuracy-evaluation scripts
`experiments/scripts/evaluate_top5.py`, `experiments/scripts/evaluate_with_mapping.py`
and `experiments/scripts/evaluate_accuracy.py`.

Modelling conventions:
* Floating-point values (model outputs, latencies) are modelled as rationals.
* A Python `dict` is modelled as an insertion-ordered list of key/value pairs;
  a later binding for the same key overwrites an earlier one, so lookup returns
  the value of the last binding.
* Python dicts of counters (`class_correct`, `class_total`) are modelled as total
  functions `String → Nat` with default 0; the scripts' explicit zero-
  initialisation of an absent key is then a no-op on the counter values.
* Per-sample interactions with the environment (image decoding, HTTP transport)
  are modelled by an explicit outcome datum carried by each sample; the driver
  loop is a fold over the sample list.
-/

namespace Ecrl

/-- Python dict lookup: the dict is an insertion-ordered association list and a
later assignment to the same key overwrites an earlier one, hence lookup
returns the value of the LAST binding for the key. -/
def dictGet? {α β : Type} [DecidableEq α] (d : List (α × β)) (k : α) : Option β :=
  (d.reverse.find? (fun p => decide (p.1 = k))).map (fun p => p.2)

/-- Python `dict.get(k, default)`. -/
def dictGetD {α β : Type} [DecidableEq α] (d : List (α × β)) (k : α) (dflt : β) : β :=
  (dictGet? d k).getD dflt

/-- Strict lexicographic comparison of character lists by code point, matching
Python's string `<`. -/
def lexLtChars : List Char → List Char → Bool
  | [], [] => false
  | [], _ :: _ => true
  | _ :: _, [] => false
  | a :: as, b :: bs => a.val < b.val || (a.val == b.val && lexLtChars as bs)

/-- Python's `<=` on strings: equality or strict lexicographic order by code
point. -/
def pyStrLe (a b : String) : Bool :=
  a == b || lexLtChars a.data b.data

/-- Python `str.strip()`: drop leading and trailing whitespace. -/
def pyStrip (s : String) : String :=
  String.mk (((s.data.dropWhile Char.isWhitespace).reverse.dropWhile Char.isWhitespace).reverse)

/-- Worker for `pySplit`, scanning the characters while accumulating the
current (reversed) token. -/
def pySplitGo : List Char → List Char → List String
  | [], acc => if acc.isEmpty then [] else [String.mk acc.reverse]
  | c :: cs, acc =>
      if c.isWhitespace then
        if acc.isEmpty then pySplitGo cs [] else String.mk acc.reverse :: pySplitGo cs []
      else pySplitGo cs (c :: acc)

/-- Python `str.split()` with no argument: split on runs of whitespace, dropping
empty fields.  `line.strip().split()` coincides with this. -/
def pySplit (s : String) : List String :=
  pySplitGo s.data []

/-- The annotation-file parsing loop shared by `load_val_annotations` in
`evaluate_top5.py` (lines 44-51) and `evaluate_with_mapping.py` (lines 62-69):
each line is whitespace-split, and lines with at least two fields contribute the
pair (image file, class id) to the `val_annotations` dict. -/
def parse_annotation_lines (lines : List String) : List (String × String) :=
  lines.filterMap (fun line =>
    match pySplit line with
    | imgFile :: classId :: _ => some (imgFile, classId)
    | _ => none)

/-- `sorted(class_ids)` where `class_ids` is the set of class ids collected from
the annotation lines: the distinct class ids in ascending lexicographic order
(`evaluate_top5.py` line 60). -/
def sorted_class_ids (annLines : List String) : List String :=
  List.insertionSort (fun a b => pyStrLe a b = true)
    (((parse_annotation_lines annLines).map (fun p => p.2)).dedup)

/-- The `class_to_idx` dict built by `load_val_annotations`
(`evaluate_top5.py` lines 53-60, identical in `evaluate_with_mapping.py` lines
71-78): if `wnids.txt` is present, each stripped line is bound to its line
position; otherwise each class id discovered in the annotation file is bound to
its position in the sorted set of discovered class ids. -/
def class_to_idx (wnidsLines : Option (List String)) (annLines : List String) :
    List (String × Nat) :=
  match wnidsLines with
  | some lines =>
      let wnids := lines.map pyStrip
      wnids.enum.map (fun p => (p.2, p.1))
  | none =>
      (sorted_class_ids annLines).enum.map (fun p => (p.2, p.1))

/-- Value of a model-output vector at an index (indices produced by the sort are
always in bounds, so the default is immaterial). -/
def valAt (l : List ℚ) (i : Nat) : ℚ := l.getD i 0

/-- The comparison underlying the argsort: ascending by output value, ties by
ascending index.  This is the stable ascending argsort order. -/
def argsortLe (l : List ℚ) (i j : Nat) : Bool :=
  decide (valAt l i < valAt l j ∨ (valAt l i = valAt l j ∧ i ≤ j))

/-- `np.argsort(v)`: the indices of `v` sorted by ascending value.  Modelled as
the stable ascending argsort (equal values keep ascending index order), which is
NumPy's documented behaviour for `kind='stable'` and its actual behaviour via
insertion sort on small arrays. -/
def argsort (l : List ℚ) : List Nat :=
  List.insertionSort (fun i j => argsortLe l i j = true) (List.range l.length)

/-- `np.argsort(output_data[0])[-5:][::-1]` (`evaluate_top5.py` line 190): the
last five entries of the ascending argsort, reversed — equivalently, the first
five entries of the reversed argsort. -/
def top5Indices (l : List ℚ) : List Nat :=
  ((argsort l).reverse).take 5

/-- `true_class_mod in top5_mod` (`evaluate_top5.py` lines 196-203): the
demonstration heuristic compares indices modulo 1000. -/
def isTop5Correct (l : List ℚ) (g : Nat) : Bool :=
  decide (g % 1000 ∈ (top5Indices l).map (fun idx => idx % 1000))

/-- The scoring block of `evaluate_top5.py` lines 190-203.  `top5_indices[0]`
raises `IndexError` on an empty output vector; the loop's `except` catches it
and the sample is skipped, which the `none` case records.  Otherwise the result
is the pair (`is_top1_correct`, `is_top5_correct`). -/
def scoreTop5 (l : List ℚ) (g : Nat) : Option (Bool × Bool) :=
  match (top5Indices l).head? with
  | none => none
  | some top1 => some (top1 % 1000 == g % 1000, isTop5Correct l g)

/-- `top1_index = top5_indices[0]` (`evaluate_top5.py` line 191), `none` when
the indexing raises. -/
def top1Index? (l : List ℚ) : Option Nat :=
  (top5Indices l).head?

/-- Auxiliary loop for `argmax?`: scan the tail keeping the best value, its
index, and the index of the next element; a strictly greater value is required
to displace the current best, so the FIRST occurrence of the maximum wins,
matching `np.argmax`. -/
def argmaxGo : List ℚ → ℚ → Nat → Nat → Nat
  | [], _, best, _ => best
  | y :: ys, bv, best, i =>
      if bv < y then argmaxGo ys y i (i + 1) else argmaxGo ys bv best (i + 1)

/-- `np.argmax(v)`: index of the first occurrence of the maximum value; raises
on an empty array (the `none` case, caught by the loop's `except`). -/
def argmax? : List ℚ → Option Nat
  | [] => none
  | x :: xs => some (argmaxGo xs x 0 1)

/-- The output-tensor search of `evaluate_top5.py` lines 180-183 (identical in
`evaluate_with_mapping.py` lines 212-215): scan the response outputs in order
and take the data of the first one whose name is `logits`, `output` or
`predictions`. -/
def findOutput (outputs : List (String × List ℚ)) : Option (List ℚ) :=
  (outputs.find? (fun o =>
    o.1 == "logits" || o.1 == "output" || o.1 == "predictions")).map (fun o => o.2)

/-- `np.percentile(values, q)` with the default linear interpolation: sort the
values ascending, compute the fractional rank `q/100 * (n-1)`, and linearly
interpolate between the two neighbouring order statistics. -/
def npPercentile (l : List ℚ) (q : ℚ) : ℚ :=
  let s := List.insertionSort (fun a b : ℚ => a ≤ b) l
  let rank := q / 100 * ((s.length : ℚ) - 1)
  let lower := (⌊rank⌋).toNat
  let frac := rank - (⌊rank⌋ : ℚ)
  s.getD lower 0 + frac * (s.getD (lower + 1) (s.getD lower 0) - s.getD lower 0)

/-- Increment a counter dict at a key (`d[k] += 1`). -/
def bump (f : String → Nat) (k : String) : String → Nat :=
  fun c => if c = k then f c + 1 else f c

/-- What the environment does for one sample of the HTTP-based drivers
(`evaluate_top5.py`, `evaluate_with_mapping.py`):
* `preprocessFail`: `preprocess_image` returned `None` and the loop `continue`s;
* `requestRaised`: `requests.post` raised before a response (and hence before a
  latency measurement) existed; the loop's `except` catches it;
* `response status latency outputs`: a response arrived after `latency`
  milliseconds with the given HTTP status and named output tensors (each
  already reshaped to its declared row vector). -/
inductive FetchOutcome where
  | preprocessFail
  | requestRaised
  | response (status : Nat) (latency : ℚ) (outputs : List (String × List ℚ))
deriving DecidableEq

/-! ## evaluate_top5.py -/

/-- One listed validation sample of `evaluate_top5.py` together with its
environment outcome. -/
structure T5Sample where
  imgBase : String
  trueClassId : String
  trueClassIdx : Nat
  outcome : FetchOutcome
deriving DecidableEq

/-- One entry of `all_results` (`evaluate_top5.py` lines 214-224). -/
structure T5Detail where
  image : String
  trueClassId : String
  trueClassIdx : Nat
  top1Index : Nat
  top5IndicesOut : List Nat
  top1Correct : Bool
  top5Correct : Bool
  latencyMs : ℚ
deriving DecidableEq

/-- Mutable evaluation state of `evaluate_top5.py` (lines 128-132). -/
structure T5Acc where
  top1Correct : Nat
  top5Correct : Nat
  total : Nat
  latencies : List ℚ
  allResults : List T5Detail
deriving DecidableEq

/-- Empty accumulator (`evaluate_top5.py` lines 128-132). -/
def t5Init : T5Acc := ⟨0, 0, 0, [], []⟩

/-- The loop body of `evaluate_top5.py` lines 140-231 for one sample.
A preprocessing failure or a raised request leaves the state unchanged.  When a
response arrives, the measured latency is appended FIRST (line 169); a non-200
status, a missing recognised output tensor, or an `IndexError` from an empty
output row each end the iteration with only that latency recorded.  A scored
sample updates the counters and appends a detail record (lines 199-224). -/
def t5Step (acc : T5Acc) (s : T5Sample) : T5Acc :=
  match s.outcome with
  | .preprocessFail => acc
  | .requestRaised => acc
  | .response status latency outputs =>
      let acc1 : T5Acc := { acc with latencies := acc.latencies ++ [latency] }
      if status ≠ 200 then acc1
      else
        match findOutput outputs with
        | none => acc1
        | some data =>
            match scoreTop5 data s.trueClassIdx with
            | none => acc1
            | some (t1, t5) =>
                { acc1 with
                  top1Correct := acc1.top1Correct + (if t1 then 1 else 0)
                  top5Correct := acc1.top5Correct + (if t5 then 1 else 0)
                  total := acc1.total + 1
                  allResults := acc1.allResults ++
                    [⟨s.imgBase, s.trueClassId, s.trueClassIdx,
                      (top5Indices data).headI, top5Indices data, t1, t5, latency⟩] }

/-- The whole evaluation loop of `evaluate_top5.py` from a given state. -/
def runT5From (acc : T5Acc) (samples : List T5Sample) : T5Acc :=
  samples.foldl t5Step acc

/-- The whole evaluation loop of `evaluate_top5.py` from the empty state. -/
def runT5 (samples : List T5Sample) : T5Acc :=
  runT5From t5Init samples

/-- The report dict of `evaluate_top5.py` lines 246-258. -/
structure T5Report where
  top1Accuracy : ℚ
  top5Accuracy : ℚ
  top1CorrectCount : Nat
  top5CorrectCount : Nat
  totalCount : Nat
  avgLatencyMs : ℚ
  p95LatencyMs : ℚ
  p99LatencyMs : ℚ
  elapsedTime : ℚ
  imagesPerSecond : ℚ
  detailedResults : List T5Detail
deriving DecidableEq

/-- Metric aggregation of `evaluate_top5.py` lines 233-258: accuracy guarded by
`total > 0`, latency statistics guarded by a non-empty latency list, throughput
guarded by `elapsed_time > 0`, and the embedded detail list truncated to the
first 100 entries (line 257). -/
def t5Finalize (acc : T5Acc) (elapsed : ℚ) : T5Report :=
  { top1Accuracy := if acc.total > 0 then (acc.top1Correct : ℚ) / (acc.total : ℚ) else 0
    top5Accuracy := if acc.total > 0 then (acc.top5Correct : ℚ) / (acc.total : ℚ) else 0
    top1CorrectCount := acc.top1Correct
    top5CorrectCount := acc.top5Correct
    totalCount := acc.total
    avgLatencyMs := if acc.latencies ≠ [] then acc.latencies.sum / (acc.latencies.length : ℚ) else 0
    p95LatencyMs := if acc.latencies ≠ [] then npPercentile acc.latencies 95 else 0
    p99LatencyMs := if acc.latencies ≠ [] then npPercentile acc.latencies 99 else 0
    elapsedTime := elapsed
    imagesPerSecond := if elapsed > 0 then (acc.total : ℚ) / elapsed else 0
    detailedResults := acc.allResults.take 100 }

/-! ## evaluate_with_mapping.py -/

/-- `int(tiny_imagenet_to_imagenet.get(str(true_class_idx), -1))`
(`evaluate_with_mapping.py` line 172): the cross-space mapping lookup with
sentinel -1 for a missing entry. -/
def trueImagenetIdx (mapping : List (String × Int)) (trueClassIdx : Nat) : Int :=
  dictGetD mapping (toString trueClassIdx) (-1)

/-- One listed validation sample of `evaluate_with_mapping.py` together with its
environment outcome. -/
structure WMSample where
  imgBase : String
  trueClassId : String
  trueClassIdx : Nat
  outcome : FetchOutcome
deriving DecidableEq

/-- One entry of `all_results` (`evaluate_with_mapping.py` lines 242-250). -/
structure WMDetail where
  image : String
  trueClassId : String
  trueClassIdx : Nat
  trueImagenetIdxOut : Int
  predictedImagenetIdx : Nat
  correct : Bool
  latencyMs : ℚ
deriving DecidableEq

/-- Mutable evaluation state of `evaluate_with_mapping.py` (lines 151-156).
The counter dicts `class_correct` / `class_total` are modelled as total
functions with default 0, so the zero-initialisation of an absent key
(lines 175-177) is a no-op on the modelled values. -/
structure WMAcc where
  correct : Nat
  total : Nat
  classCorrect : String → Nat
  classTotal : String → Nat
  latencies : List ℚ
  allResults : List WMDetail

/-- Empty accumulator (`evaluate_with_mapping.py` lines 151-156). -/
def wmInit : WMAcc := ⟨0, 0, fun _ => 0, fun _ => 0, [], []⟩

/-- The loop body of `evaluate_with_mapping.py` lines 164-258 for one sample.
The mapping lookup (line 172) and the class-counter key insertion (lines
175-177) precede preprocessing but change no counter value.  On a response the
latency is appended first (line 201); a non-200 status, a missing output
tensor, or a raised `np.argmax` on an empty array end the iteration there.  A
scored sample compares `np.argmax` of the output (a nonnegative index) with the
mapped ground-truth index and updates the counters (lines 222-251). -/
def wmStep (mapping : List (String × Int)) (acc : WMAcc) (s : WMSample) : WMAcc :=
  match s.outcome with
  | .preprocessFail => acc
  | .requestRaised => acc
  | .response status latency outputs =>
      let acc1 : WMAcc := { acc with latencies := acc.latencies ++ [latency] }
      if status ≠ 200 then acc1
      else
        match findOutput outputs with
        | none => acc1
        | some data =>
            match argmax? data with
            | none => acc1
            | some p =>
                let t : Int := trueImagenetIdx mapping s.trueClassIdx
                let isCorrect : Bool := ((p : Int) == t)
                { acc1 with
                  correct := acc1.correct + (if isCorrect then 1 else 0)
                  classCorrect :=
                    if isCorrect then bump acc1.classCorrect s.trueClassId
                    else acc1.classCorrect
                  total := acc1.total + 1
                  classTotal := bump acc1.classTotal s.trueClassId
                  allResults := acc1.allResults ++
                    [⟨s.imgBase, s.trueClassId, s.trueClassIdx, t, p, isCorrect, latency⟩] }

/-- The whole evaluation loop of `evaluate_with_mapping.py` from a given state. -/
def runWMFrom (mapping : List (String × Int)) (acc : WMAcc) (samples : List WMSample) : WMAcc :=
  samples.foldl (wmStep mapping) acc

/-- The whole evaluation loop of `evaluate_with_mapping.py` from the empty state. -/
def runWM (mapping : List (String × Int)) (samples : List WMSample) : WMAcc :=
  runWMFrom mapping wmInit samples

/-- The report dict of `evaluate_with_mapping.py` lines 277-288.  The per-class
accuracy dict is modelled as a total function (classes never scored map to 0,
matching the guard on line 266). -/
structure WMReport where
  overallAccuracy : ℚ
  correctCount : Nat
  totalCount : Nat
  perClassAccuracy : String → ℚ
  avgLatencyMs : ℚ
  p95LatencyMs : ℚ
  p99LatencyMs : ℚ
  elapsedTime : ℚ
  imagesPerSecond : ℚ
  detailedResults : List WMDetail

/-- Metric aggregation of `evaluate_with_mapping.py` lines 260-288. -/
def wmFinalize (acc : WMAcc) (elapsed : ℚ) : WMReport :=
  { overallAccuracy := if acc.total > 0 then (acc.correct : ℚ) / (acc.total : ℚ) else 0
    correctCount := acc.correct
    totalCount := acc.total
    perClassAccuracy := fun c =>
      if acc.classTotal c > 0 then (acc.classCorrect c : ℚ) / (acc.classTotal c : ℚ) else 0
    avgLatencyMs := if acc.latencies ≠ [] then acc.latencies.sum / (acc.latencies.length : ℚ) else 0
    p95LatencyMs := if acc.latencies ≠ [] then npPercentile acc.latencies 95 else 0
    p99LatencyMs := if acc.latencies ≠ [] then npPercentile acc.latencies 99 else 0
    elapsedTime := elapsed
    imagesPerSecond := if elapsed > 0 then (acc.total : ℚ) / elapsed else 0
    detailedResults := acc.allResults.take 100 }

/-! ## evaluate_accuracy.py -/

/-- What the environment does for one sample of `evaluate_accuracy.py` (Triton
client transport):
* `preprocessFail`: `preprocess_image` returned `None` and the loop `continue`s;
* `inferRaised`: the inference call or response handling raised; the loop's
  `except` catches it;
* `output data`: `response.as_numpy("logits")` yielded the given values. -/
inductive InferOutcome where
  | preprocessFail
  | inferRaised
  | output (data : List ℚ)
deriving DecidableEq

/-- One listed validation sample of `evaluate_accuracy.py` together with its
environment outcome. -/
structure ACSample where
  imgBase : String
  trueClass : String
  outcome : InferOutcome
deriving DecidableEq

/-- One entry of `all_results` (`evaluate_accuracy.py` lines 210-217). -/
structure ACDetail where
  image : String
  trueClass : String
  trueClassName : String
  predictedClass : String
  predictedClassName : String
  correct : Bool
deriving DecidableEq

/-- Mutable evaluation state of `evaluate_accuracy.py` (lines 89-93), counter
dicts again modelled as total functions with default 0. -/
structure ACAcc where
  correct : Nat
  total : Nat
  classCorrect : String → Nat
  classTotal : String → Nat
  allResults : List ACDetail

/-- Empty accumulator (`evaluate_accuracy.py` lines 89-93). -/
def acInit : ACAcc := ⟨0, 0, fun _ => 0, fun _ => 0, []⟩

/-- The loop body of `evaluate_accuracy.py` lines 164-221 for one sample.
`predicted_class = str(np.argmax(output))` is compared with the true class id
as a STRING (line 202); `np.argmax` raises on an empty output, caught by the
loop's `except`.  The class map only decorates the detail record (lines
213-215). -/
def acStep (classMap : List (String × String)) (acc : ACAcc) (s : ACSample) : ACAcc :=
  match s.outcome with
  | .preprocessFail => acc
  | .inferRaised => acc
  | .output data =>
      match argmax? data with
      | none => acc
      | some p =>
          let predictedClass := toString p
          let isCorrect : Bool := (predictedClass == s.trueClass)
          { acc with
            correct := acc.correct + (if isCorrect then 1 else 0)
            classCorrect :=
              if isCorrect then bump acc.classCorrect s.trueClass else acc.classCorrect
            total := acc.total + 1
            classTotal := bump acc.classTotal s.trueClass
            allResults := acc.allResults ++
              [⟨s.imgBase, s.trueClass, dictGetD classMap s.trueClass s.trueClass,
                predictedClass, dictGetD classMap predictedClass predictedClass, isCorrect⟩] }

/-- The whole evaluation loop of `evaluate_accuracy.py` from a given state. -/
def runACFrom (classMap : List (String × String)) (acc : ACAcc) (samples : List ACSample) : ACAcc :=
  samples.foldl (acStep classMap) acc

/-- The whole evaluation loop of `evaluate_accuracy.py` from the empty state. -/
def runAC (classMap : List (String × String)) (samples : List ACSample) : ACAcc :=
  runACFrom classMap acInit samples

/-- The report dict of `evaluate_accuracy.py` lines 235-243.  Note that
`detailed_results` embeds the WHOLE `all_results` list, with no truncation. -/
structure ACReport where
  overallAccuracy : ℚ
  correctCount : Nat
  totalCount : Nat
  perClassAccuracy : String → ℚ
  elapsedTime : ℚ
  imagesPerSecond : ℚ
  detailedResults : List ACDetail

/-- Metric aggregation of `evaluate_accuracy.py` lines 223-243. -/
def acFinalize (acc : ACAcc) (elapsed : ℚ) : ACReport :=
  { overallAccuracy := if acc.total > 0 then (acc.correct : ℚ) / (acc.total : ℚ) else 0
    correctCount := acc.correct
    totalCount := acc.total
    perClassAccuracy := fun c =>
      if acc.classTotal c > 0 then (acc.classCorrect c : ℚ) / (acc.classTotal c : ℚ) else 0
    elapsedTime := elapsed
    imagesPerSecond := if elapsed > 0 then (acc.total : ℚ) / elapsed else 0
    detailedResults := acc.allResults }

/-! ## Dictionary lookup lemmas -/

/-- In a dict whose keys are pairwise distinct, the reversed scan underlying
`dictGet?` finds exactly the unique binding of the key. -/
theorem findRev_eq_of_mem_of_nodupKeys {α β : Type} [DecidableEq α]
    (d : List (α × β)) (k : α) (v : β)
    (hn : (d.map Prod.fst).Nodup) (hm : (k, v) ∈ d) :
    d.reverse.find? (fun p => decide (p.1 = k)) = some (k, v) := by
  induction d with
  | nil => simp at hm
  | cons p rest ih =>
      rw [List.map_cons, List.nodup_cons] at hn
      rw [List.reverse_cons, List.find?_append]
      rcases List.mem_cons.mp hm with h | h
      · have hnone : rest.reverse.find? (fun q => decide (q.1 = k)) = none := by
          rw [List.find?_eq_none]
          intro x hx
          simp only [decide_eq_true_eq]
          intro hxk
          exact hn.1 (h ▸ (List.mem_map.mpr ⟨x, List.mem_reverse.mp hx, hxk⟩))
        rw [hnone, ← h]
        simp [List.find?]
      · rw [ih hn.2 h]
        rfl

/-- Lookup of a uniquely-bound key in a modelled Python dict. -/
theorem dictGet_eq_of_mem_of_nodupKeys {α β : Type} [DecidableEq α]
    (d : List (α × β)) (k : α) (v : β)
    (hn : (d.map Prod.fst).Nodup) (hm : (k, v) ∈ d) :
    dictGet? d k = some v := by
  rw [dictGet?, findRev_eq_of_mem_of_nodupKeys d k v hn hm]
  rfl

/-- In the dict `{x: i for i, x in enumerate(l)}` over a duplicate-free list,
every element is bound to its position. -/
theorem dictGet_enum_swap {α : Type} [DecidableEq α] (l : List α) (hn : l.Nodup)
    (i : Nat) (hi : i < l.length) :
    dictGet? (l.enum.map fun p => (p.2, p.1)) l[i] = some i := by
  apply dictGet_eq_of_mem_of_nodupKeys
  · have hkeys : (l.enum.map fun p => (p.2, p.1)).map Prod.fst = l := by
      rw [List.map_map]
      exact List.enum_map_snd l
    rw [hkeys]
    exact hn
  · refine List.mem_map.mpr ⟨(i, l[i]), ?_, rfl⟩
    have hlen : i < l.enum.length := by
      rw [List.enum_length]; exact hi
    have h := List.getElem_enum l i hlen
    exact h ▸ List.getElem_mem hlen

/-- C5: label-to-index assignment priority.  When an ordered label file is
present, each (stripped) label is bound to its line position, provided the file
lists each label once; otherwise each discovered class id is bound to its
position in the lexicographically sorted set of discovered class ids.  On the
concrete scenario (annotations `img_0.jpg n01443537`, `img_1.jpg n01629819`;
ordered file `n01629819`, `n01443537`) the resolved indices are
`{n01629819: 0, n01443537: 1}` and `img_0.jpg` resolves to index 1. -/
theorem C5_label_index_priority :
    (∀ (lines ann : List String), (lines.map pyStrip).Nodup →
       ∀ (i : Nat) (hi : i < (lines.map pyStrip).length),
         dictGet? (class_to_idx (some lines) ann) ((lines.map pyStrip).get ⟨i, hi⟩) = some i) ∧
    (∀ (ann : List String) (i : Nat) (hi : i < (sorted_class_ids ann).length),
       dictGet? (class_to_idx none ann) ((sorted_class_ids ann).get ⟨i, hi⟩) = some i) ∧
    class_to_idx (some ["n01629819", "n01443537"])
        ["img_0.jpg n01443537", "img_1.jpg n01629819"]
      = [("n01629819", 0), ("n01443537", 1)] ∧
    dictGet? (parse_annotation_lines ["img_0.jpg n01443537", "img_1.jpg n01629819"])
        "img_0.jpg" = some "n01443537" ∧
    dictGet? (class_to_idx (some ["n01629819", "n01443537"])
        ["img_0.jpg n01443537", "img_1.jpg n01629819"]) "n01443537" = some 1 := by
  refine ⟨?_, ?_, by decide, by decide, by decide⟩
  · intro lines ann hn i hi
    show dictGet? ((lines.map pyStrip).enum.map fun p => (p.2, p.1)) _ = some i
    have := dictGet_enum_swap (lines.map pyStrip) hn i hi
    simpa using this
  · intro ann i hi
    have hn : (sorted_class_ids ann).Nodup := by
      have hperm := List.perm_insertionSort (fun a b => pyStrLe a b = true)
        (((parse_annotation_lines ann).map (fun p => p.2)).dedup)
      exact hperm.symm.nodup (List.nodup_dedup _)
    show dictGet? ((sorted_class_ids ann).enum.map fun p => (p.2, p.1)) _ = some i
    have := dictGet_enum_swap (sorted_class_ids ann) hn i hi
    simpa using this

/-- Witness for C5: the ordered-file branch evaluated on the scenario data. -/
theorem C5_label_index_priority_witness :
    dictGet? (class_to_idx (some ["n01629819", "n01443537"])
        ["img_0.jpg n01443537", "img_1.jpg n01629819"])
      ((["n01629819", "n01443537"].map pyStrip).get ⟨1, by decide⟩) = some 1 :=
  C5_label_index_priority.1 ["n01629819", "n01443537"]
    ["img_0.jpg n01443537", "img_1.jpg n01629819"] (by decide) 1 (by decide)

/-- C4: with `total = 0` the reported accuracies are 0, and with elapsed time 0
the reported throughput is 0; the guarded aggregation is a total function, so a
zero-sample run still yields a report. -/
theorem C4_zero_sample_guards (acc : T5Acc) (acc2 : ACAcc) (acc3 : T5Acc) (acc4 : ACAcc) (e : ℚ)
    (h : acc.total = 0) (h2 : acc2.total = 0) :
    (t5Finalize acc e).top1Accuracy = 0 ∧
    (t5Finalize acc e).top5Accuracy = 0 ∧
    (acFinalize acc2 e).overallAccuracy = 0 ∧
    (t5Finalize acc3 0).imagesPerSecond = 0 ∧
    (acFinalize acc4 0).imagesPerSecond = 0 := by
  refine ⟨?_, ?_, ?_, ?_, ?_⟩ <;> simp [t5Finalize, acFinalize, h, h2]

/-- Witness for C4 at the empty accumulators. -/
theorem C4_zero_sample_guards_witness :
    (t5Finalize t5Init 1).top1Accuracy = 0 ∧
    (t5Finalize t5Init 1).top5Accuracy = 0 ∧
    (acFinalize acInit 1).overallAccuracy = 0 ∧
    (t5Finalize t5Init 0).imagesPerSecond = 0 ∧
    (acFinalize acInit 0).imagesPerSecond = 0 :=
  C4_zero_sample_guards t5Init acInit t5Init acInit 1 rfl rfl

/-- C6: the top-1 prediction is the first element of the top-5 ranking, and a
sample judged top-1 correct is judged top-5 correct. -/
theorem C6_top1_implies_top5 (l : List ℚ) (g : Nat) :
    top1Index? l = (top5Indices l).head? ∧
    ((scoreTop5 l g).map Prod.fst = some true → (scoreTop5 l g).map Prod.snd = some true) := by
  refine ⟨rfl, ?_⟩
  intro h
  cases hh : (top5Indices l).head? with
  | none =>
      rw [scoreTop5, hh] at h
      simp at h
  | some top1 =>
      have hs : scoreTop5 l g = some (top1 % 1000 == g % 1000, isTop5Correct l g) := by
        rw [scoreTop5, hh]
      rw [hs] at h ⊢
      have h1 : top1 % 1000 = g % 1000 := by simpa using h
      have hmem : top1 ∈ top5Indices l := List.mem_of_mem_head? hh
      have h5 : isTop5Correct l g = true := by
        rw [isTop5Correct, decide_eq_true_eq]
        refine List.mem_map.mpr ⟨top1, hmem, ?_⟩
        rw [h1]
      simp [h5]

/-- Witness for C6: an output whose index 1 carries the highest value, scored
against ground truth 1, is top-1 correct, hence top-5 correct. -/
theorem C6_top1_implies_top5_witness :
    (scoreTop5 [10, 90, 5] 1).map Prod.snd = some true :=
  (C6_top1_implies_top5 [10, 90, 5] 1).2 (by decide)

/-- C7: a preprocessing failure leaves every accumulator component unchanged
(the sample is neither counted nor recorded) and the fold simply proceeds with
the remaining samples, in both `evaluate_top5.py` and `evaluate_accuracy.py`. -/
theorem C7_preprocess_failure_skipped (acc : T5Acc) (s : T5Sample) (rest : List T5Sample)
    (cm : List (String × String)) (acc2 : ACAcc) (s2 : ACSample) (rest2 : List ACSample)
    (h : s.outcome = .preprocessFail) (h2 : s2.outcome = .preprocessFail) :
    t5Step acc s = acc ∧
    runT5From acc (s :: rest) = runT5From acc rest ∧
    acStep cm acc2 s2 = acc2 ∧
    runACFrom cm acc2 (s2 :: rest2) = runACFrom cm acc2 rest2 := by
  have e1 : t5Step acc s = acc := by rw [t5Step, h]
  have e2 : acStep cm acc2 s2 = acc2 := by rw [acStep, h2]
  refine ⟨e1, ?_, e2, ?_⟩
  · rw [runT5From, List.foldl_cons, e1]; rfl
  · rw [runACFrom, List.foldl_cons, e2]; rfl

/-- Witness for C7 at a concrete failing sample and a nonempty tail. -/
theorem C7_preprocess_failure_skipped_witness :
    t5Step t5Init ⟨"a.jpg", "c", 0, .preprocessFail⟩ = t5Init ∧
    runT5From t5Init (⟨"a.jpg", "c", 0, .preprocessFail⟩ :: [⟨"b.jpg", "c", 0, .requestRaised⟩])
      = runT5From t5Init [⟨"b.jpg", "c", 0, .requestRaised⟩] ∧
    acStep [] acInit ⟨"a.jpg", "0", .preprocessFail⟩ = acInit ∧
    runACFrom [] acInit (⟨"a.jpg", "0", .preprocessFail⟩ :: []) = runACFrom [] acInit [] :=
  C7_preprocess_failure_skipped t5Init ⟨"a.jpg", "c", 0, .preprocessFail⟩
    [⟨"b.jpg", "c", 0, .requestRaised⟩] [] acInit ⟨"a.jpg", "0", .preprocessFail⟩ [] rfl rfl

set_option maxRecDepth 10000 in
/-- C8 counterexample: the claim fails on `evaluate_accuracy.py`, whose report
embeds the whole detail list.  A run of 101 scored samples produces a report
whose embedded detail list has 101 entries, exceeding the claimed fixed cap of
100. -/
theorem C8_counterexample :
    (acFinalize (runAC [] (List.replicate 101 ⟨"", "0", .output [1]⟩)) 1).detailedResults.length
        = 101 ∧
    ¬ (101 ≤ 100) := by
  refine ⟨by decide, by decide⟩

/-- C8 amended: `evaluate_top5.py` and `evaluate_with_mapping.py` embed at most
the first 100 detail records in the report; `evaluate_accuracy.py` embeds the
whole detail list with no cap. -/
theorem C8_detail_cap (acc : T5Acc) (accw : WMAcc) (acca : ACAcc) (e : ℚ) :
    (t5Finalize acc e).detailedResults = acc.allResults.take 100 ∧
    (t5Finalize acc e).detailedResults.length ≤ 100 ∧
    (wmFinalize accw e).detailedResults = accw.allResults.take 100 ∧
    (wmFinalize accw e).detailedResults.length ≤ 100 ∧
    (acFinalize acca e).detailedResults = acca.allResults :=
  ⟨rfl, List.length_take_le 100 _, rfl, List.length_take_le 100 _, rfl⟩

/-! ## Observers on sample outcomes

Derived Boolean observers used to characterise the effect of one loop
iteration on the accumulated counters. -/

/-- The request of this sample received an HTTP response (of any status). -/
def T5Sample.gotResponse (s : T5Sample) : Bool :=
  match s.outcome with
  | .response _ _ _ => true
  | _ => false

/-- The request of this sample received an HTTP 500 response. -/
def T5Sample.is500 (s : T5Sample) : Bool :=
  match s.outcome with
  | .response st _ _ => st == 500
  | _ => false

/-- The request of this sample received an HTTP response (of any status). -/
def WMSample.gotResponse (s : WMSample) : Bool :=
  match s.outcome with
  | .response _ _ _ => true
  | _ => false

/-- The request of this sample received an HTTP 500 response. -/
def WMSample.is500 (s : WMSample) : Bool :=
  match s.outcome with
  | .response st _ _ => st == 500
  | _ => false

/-- The sample reaches the scoring block of `evaluate_top5.py`: status 200, a
recognised output tensor, and a non-raising top-5 computation. -/
def t5Scored (s : T5Sample) : Bool :=
  match s.outcome with
  | .response st _ outs =>
      st == 200 &&
        (match findOutput outs with
         | some data => (scoreTop5 data s.trueClassIdx).isSome
         | none => false)
  | _ => false

/-- The sample is scored and judged top-1 correct by `evaluate_top5.py`. -/
def t5Top1B (s : T5Sample) : Bool :=
  match s.outcome with
  | .response st _ outs =>
      st == 200 &&
        (match findOutput outs with
         | some data =>
             (match scoreTop5 data s.trueClassIdx with
              | some (t1, _) => t1
              | none => false)
         | none => false)
  | _ => false

/-- The sample is scored and judged top-5 correct by `evaluate_top5.py`. -/
def t5Top5B (s : T5Sample) : Bool :=
  match s.outcome with
  | .response st _ outs =>
      st == 200 &&
        (match findOutput outs with
         | some data =>
             (match scoreTop5 data s.trueClassIdx with
              | some (_, t5) => t5
              | none => false)
         | none => false)
  | _ => false

/-- The sample reaches the scoring block of `evaluate_with_mapping.py`. -/
def wmScored (s : WMSample) : Bool :=
  match s.outcome with
  | .response st _ outs =>
      st == 200 &&
        (match findOutput outs with
         | some data => (argmax? data).isSome
         | none => false)
  | _ => false

/-- The sample is scored and judged correct by `evaluate_with_mapping.py`. -/
def wmCorrectB (m : List (String × Int)) (s : WMSample) : Bool :=
  match s.outcome with
  | .response st _ outs =>
      st == 200 &&
        (match findOutput outs with
         | some data =>
             (match argmax? data with
              | some p => ((p : Int) == trueImagenetIdx m s.trueClassIdx)
              | none => false)
         | none => false)
  | _ => false

/-- The sample reaches the scoring block of `evaluate_accuracy.py`. -/
def acScored (s : ACSample) : Bool :=
  match s.outcome with
  | .output data => (argmax? data).isSome
  | _ => false

/-- The sample is scored and judged correct by `evaluate_accuracy.py`. -/
def acCorrectB (s : ACSample) : Bool :=
  match s.outcome with
  | .output data =>
      (match argmax? data with
       | some p => (toString p == s.trueClass)
       | none => false)
  | _ => false

/-! ## Step and run characterisation lemmas -/

/-- Effect of one `evaluate_top5.py` iteration on the counters and on the
number of collected latencies. -/
theorem t5Step_counts (acc : T5Acc) (s : T5Sample) :
    (t5Step acc s).total = acc.total + (if t5Scored s then 1 else 0) ∧
    (t5Step acc s).top1Correct = acc.top1Correct + (if t5Top1B s then 1 else 0) ∧
    (t5Step acc s).top5Correct = acc.top5Correct + (if t5Top5B s then 1 else 0) ∧
    (t5Step acc s).latencies.length
      = acc.latencies.length + (if s.gotResponse then 1 else 0) := by
  rcases s with ⟨i, cid, cix, o⟩
  cases o with
  | preprocessFail =>
      simp [t5Step, t5Scored, t5Top1B, t5Top5B, T5Sample.gotResponse]
  | requestRaised =>
      simp [t5Step, t5Scored, t5Top1B, t5Top5B, T5Sample.gotResponse]
  | response st lat outs =>
      by_cases hst : st = 200
      · subst hst
        cases hf : findOutput outs with
        | none =>
            simp [t5Step, t5Scored, t5Top1B, t5Top5B, T5Sample.gotResponse, hf]
        | some data =>
            cases hsc : scoreTop5 data cix with
            | none =>
                simp [t5Step, t5Scored, t5Top1B, t5Top5B, T5Sample.gotResponse, hf, hsc]
            | some pr =>
                rcases pr with ⟨t1, t5⟩
                cases t1 <;> cases t5 <;>
                  simp [t5Step, t5Scored, t5Top1B, t5Top5B, T5Sample.gotResponse, hf, hsc]
      · simp [t5Step, t5Scored, t5Top1B, t5Top5B, T5Sample.gotResponse, hst]

/-- On any sample whose request received a response, the measured latency is
appended to the latency list, whatever happens afterwards (non-200 status,
missing output tensor, raised scoring, or a scored sample). -/
theorem t5Step_latency_appended (acc : T5Acc) (s : T5Sample)
    (st : Nat) (lat : ℚ) (outs : List (String × List ℚ))
    (h : s.outcome = .response st lat outs) :
    (t5Step acc s).latencies = acc.latencies ++ [lat] := by
  rcases s with ⟨i, cid, cix, o⟩
  cases h
  by_cases hst : st = 200
  · subst hst
    cases hf : findOutput outs with
    | none => simp [t5Step, hf]
    | some data =>
        cases hsc : scoreTop5 data cix with
        | none => simp [t5Step, hf, hsc]
        | some pr => simp [t5Step, hf, hsc]
  · simp [t5Step, hst]

/-- Counters and latency count of a whole `evaluate_top5.py` run. -/
theorem runT5From_counts (samples : List T5Sample) (acc : T5Acc) :
    (runT5From acc samples).total = acc.total + samples.countP t5Scored ∧
    (runT5From acc samples).top1Correct = acc.top1Correct + samples.countP t5Top1B ∧
    (runT5From acc samples).top5Correct = acc.top5Correct + samples.countP t5Top5B ∧
    (runT5From acc samples).latencies.length
      = acc.latencies.length + samples.countP T5Sample.gotResponse := by
  induction samples generalizing acc with
  | nil => simp [runT5From]
  | cons s rest ih =>
      have hstep := t5Step_counts acc s
      have hrest := ih (t5Step acc s)
      rw [runT5From, List.foldl_cons]
      rw [runT5From] at hrest
      refine ⟨?_, ?_, ?_, ?_⟩ <;>
        simp only [List.countP_cons] <;> omega

/-- Effect of one `evaluate_with_mapping.py` iteration on the scalar counters
and on the number of collected latencies. -/
theorem wmStep_counts (m : List (String × Int)) (acc : WMAcc) (s : WMSample) :
    (wmStep m acc s).total = acc.total + (if wmScored s then 1 else 0) ∧
    (wmStep m acc s).correct = acc.correct + (if wmCorrectB m s then 1 else 0) ∧
    (wmStep m acc s).latencies.length
      = acc.latencies.length + (if s.gotResponse then 1 else 0) := by
  rcases s with ⟨i, cid, cix, o⟩
  cases o with
  | preprocessFail =>
      simp [wmStep, wmScored, wmCorrectB, WMSample.gotResponse]
  | requestRaised =>
      simp [wmStep, wmScored, wmCorrectB, WMSample.gotResponse]
  | response st lat outs =>
      by_cases hst : st = 200
      · subst hst
        cases hf : findOutput outs with
        | none =>
            simp [wmStep, wmScored, wmCorrectB, WMSample.gotResponse, hf]
        | some data =>
            cases hm : argmax? data with
            | none =>
                simp [wmStep, wmScored, wmCorrectB, WMSample.gotResponse, hf, hm]
            | some p =>
                cases hc : ((p : Int) == trueImagenetIdx m cix) <;>
                  simp [wmStep, wmScored, wmCorrectB, WMSample.gotResponse, hf, hm, hc]
      · simp [wmStep, wmScored, wmCorrectB, WMSample.gotResponse, hst]

/-- Effect of one `evaluate_with_mapping.py` iteration on the per-class
counters at one class key. -/
theorem wmStep_classCounts (m : List (String × Int)) (acc : WMAcc) (s : WMSample) (c : String) :
    (wmStep m acc s).classTotal c
      = acc.classTotal c + (if wmScored s ∧ c = s.trueClassId then 1 else 0) ∧
    (wmStep m acc s).classCorrect c
      = acc.classCorrect c + (if wmCorrectB m s ∧ c = s.trueClassId then 1 else 0) := by
  rcases s with ⟨i, cid, cix, o⟩
  cases o with
  | preprocessFail => simp [wmStep, wmScored, wmCorrectB]
  | requestRaised => simp [wmStep, wmScored, wmCorrectB]
  | response st lat outs =>
      by_cases hst : st = 200
      · subst hst
        cases hf : findOutput outs with
        | none => simp [wmStep, wmScored, wmCorrectB, hf]
        | some data =>
            cases hm : argmax? data with
            | none => simp [wmStep, wmScored, wmCorrectB, hf, hm]
            | some p =>
                cases hc : ((p : Int) == trueImagenetIdx m cix) <;>
                  by_cases hcc : c = cid <;>
                    simp [wmStep, wmScored, wmCorrectB, hf, hm, hc, bump, hcc]
      · simp [wmStep, wmScored, wmCorrectB, hst]

/-- On any sample whose request received a response, `evaluate_with_mapping.py`
appends the measured latency to the latency list before the status check, so
the latency survives every later failure. -/
theorem wmStep_latency_appended (m : List (String × Int)) (acc : WMAcc) (s : WMSample)
    (st : Nat) (lat : ℚ) (outs : List (String × List ℚ))
    (h : s.outcome = .response st lat outs) :
    (wmStep m acc s).latencies = acc.latencies ++ [lat] := by
  rcases s with ⟨i, cid, cix, o⟩
  cases h
  by_cases hst : st = 200
  · subst hst
    cases hf : findOutput outs with
    | none => simp [wmStep, hf]
    | some data =>
        cases hm : argmax? data with
        | none => simp [wmStep, hf, hm]
        | some p => simp [wmStep, hf, hm]
  · simp [wmStep, hst]

/-- Scalar counters and latency count of a whole `evaluate_with_mapping.py`
run. -/
theorem runWMFrom_counts (m : List (String × Int)) (samples : List WMSample) (acc : WMAcc) :
    (runWMFrom m acc samples).total = acc.total + samples.countP wmScored ∧
    (runWMFrom m acc samples).correct = acc.correct + samples.countP (wmCorrectB m) ∧
    (runWMFrom m acc samples).latencies.length
      = acc.latencies.length + samples.countP WMSample.gotResponse := by
  induction samples generalizing acc with
  | nil => simp [runWMFrom]
  | cons s rest ih =>
      have hstep := wmStep_counts m acc s
      have hrest := ih (wmStep m acc s)
      rw [runWMFrom, List.foldl_cons]
      rw [runWMFrom] at hrest
      refine ⟨?_, ?_, ?_⟩ <;> simp only [List.countP_cons] <;> omega

/-- Per-class counters of a whole `evaluate_with_mapping.py` run at one class
key. -/
theorem runWMFrom_classCounts (m : List (String × Int)) (samples : List WMSample)
    (acc : WMAcc) (c : String) :
    (runWMFrom m acc samples).classTotal c
      = acc.classTotal c + samples.countP (fun s => wmScored s && decide (c = s.trueClassId)) ∧
    (runWMFrom m acc samples).classCorrect c
      = acc.classCorrect c
        + samples.countP (fun s => wmCorrectB m s && decide (c = s.trueClassId)) := by
  induction samples generalizing acc with
  | nil => simp [runWMFrom]
  | cons s rest ih =>
      have hstep := wmStep_classCounts m acc s c
      have hrest := ih (wmStep m acc s)
      rw [runWMFrom, List.foldl_cons]
      rw [runWMFrom] at hrest
      obtain ⟨e1, e2⟩ := hstep
      obtain ⟨f1, f2⟩ := hrest
      constructor <;>
        simp only [List.countP_cons, Bool.and_eq_true, decide_eq_true_eq, f1, f2, e1, e2] <;>
        by_cases hw : wmScored s = true <;> by_cases hv : wmCorrectB m s = true <;>
        by_cases hcc : c = s.trueClassId <;> simp [hw, hv, hcc] <;> omega

/-- An HTTP 500 sample of `evaluate_top5.py` is never scored, never counted
correct, and always contributes a latency measurement. -/
theorem is500_observers_t5 (s : T5Sample) (h : s.is500 = true) :
    t5Scored s = false ∧ t5Top1B s = false ∧ t5Top5B s = false ∧ s.gotResponse = true := by
  rcases s with ⟨i, cid, cix, o⟩
  cases o with
  | preprocessFail => simp [T5Sample.is500] at h
  | requestRaised => simp [T5Sample.is500] at h
  | response st lat outs =>
      have hst : st = 500 := by simpa [T5Sample.is500] using h
      subst hst
      simp [t5Scored, t5Top1B, t5Top5B, T5Sample.gotResponse]

/-- An HTTP 500 sample of `evaluate_with_mapping.py` is never scored, never
counted correct, and always contributes a latency measurement. -/
theorem is500_observers_wm (m : List (String × Int)) (s : WMSample) (h : s.is500 = true) :
    wmScored s = false ∧ wmCorrectB m s = false ∧ s.gotResponse = true := by
  rcases s with ⟨i, cid, cix, o⟩
  cases o with
  | preprocessFail => simp [WMSample.is500] at h
  | requestRaised => simp [WMSample.is500] at h
  | response st lat outs =>
      have hst : st = 500 := by simpa [WMSample.is500] using h
      subst hst
      simp [wmScored, wmCorrectB, WMSample.gotResponse]

/-- C1 counterexample: with one listed sample whose request gets HTTP 500, the
report's total is 0, not N = 1 — failed samples are removed from `total`
altogether rather than kept in it. -/
theorem C1_counterexample :
    (runT5 [⟨"img", "c", 0, .response 500 3 []⟩]).total = 0 ∧ (0 : Nat) ≠ 1 := by
  exact ⟨by decide, by decide⟩

/-- C1 amended: when every request returns HTTP 500, both HTTP drivers report
`total = 0` and `correct = 0`: every failed sample is excluded from the
accuracy denominator (the single, consistent policy), while each of the N
requests still contributes one latency measurement. -/
theorem C1_http500_all_excluded (ts : List T5Sample) (m : List (String × Int))
    (ws : List WMSample)
    (h1 : ∀ s ∈ ts, s.is500 = true) (h2 : ∀ s ∈ ws, s.is500 = true) :
    (runT5 ts).total = 0 ∧ (runT5 ts).top1Correct = 0 ∧ (runT5 ts).top5Correct = 0 ∧
    (runT5 ts).latencies.length = ts.length ∧
    (t5Finalize (runT5 ts) 1).top1Accuracy = 0 ∧
    (t5Finalize (runT5 ts) 1).top5Accuracy = 0 ∧
    (runWM m ws).total = 0 ∧ (runWM m ws).correct = 0 ∧
    (runWM m ws).latencies.length = ws.length ∧
    (wmFinalize (runWM m ws) 1).overallAccuracy = 0 := by
  obtain ⟨ht, hc1, hc5, hlat⟩ := runT5From_counts ts t5Init
  obtain ⟨wt, wc, wlat⟩ := runWMFrom_counts m ws wmInit
  have hz1 : ts.countP t5Scored = 0 :=
    List.countP_eq_zero.mpr (fun s hs => by simp [(is500_observers_t5 s (h1 s hs)).1])
  have hz2 : ts.countP t5Top1B = 0 :=
    List.countP_eq_zero.mpr (fun s hs => by simp [(is500_observers_t5 s (h1 s hs)).2.1])
  have hz3 : ts.countP t5Top5B = 0 :=
    List.countP_eq_zero.mpr (fun s hs => by simp [(is500_observers_t5 s (h1 s hs)).2.2.1])
  have hz4 : ts.countP T5Sample.gotResponse = ts.length :=
    List.countP_eq_length.mpr (fun s hs => (is500_observers_t5 s (h1 s hs)).2.2.2)
  have wz1 : ws.countP wmScored = 0 :=
    List.countP_eq_zero.mpr (fun s hs => by simp [(is500_observers_wm m s (h2 s hs)).1])
  have wz2 : ws.countP (wmCorrectB m) = 0 :=
    List.countP_eq_zero.mpr (fun s hs => by simp [(is500_observers_wm m s (h2 s hs)).2.1])
  have wz3 : ws.countP WMSample.gotResponse = ws.length :=
    List.countP_eq_length.mpr (fun s hs => (is500_observers_wm m s (h2 s hs)).2.2)
  have htotal : (runT5 ts).total = 0 := by
    rw [runT5, ht, hz1]
    rfl
  have wtotal : (runWM m ws).total = 0 := by
    rw [runWM, wt, wz1]
    rfl
  refine ⟨htotal, ?_, ?_, ?_, ?_, ?_, wtotal, ?_, ?_, ?_⟩
  · rw [runT5, hc1, hz2]
    rfl
  · rw [runT5, hc5, hz3]
    rfl
  · rw [runT5, hlat, hz4]
    simp [t5Init]
  · simp [t5Finalize, htotal]
  · simp [t5Finalize, htotal]
  · rw [runWM, wc, wz2]
    rfl
  · rw [runWM, wlat, wz3]
    simp [wmInit]
  · simp [wmFinalize, wtotal]

/-- Witness for C1: a one-sample all-500 run of each HTTP driver. -/
theorem C1_http500_all_excluded_witness :
    (runT5 [⟨"img", "a", 0, .response 500 7 []⟩]).total = 0 ∧
    (runWM [] [⟨"img", "a", 0, .response 500 7 []⟩]).total = 0 := by
  have h := C1_http500_all_excluded [⟨"img", "a", 0, .response 500 7 []⟩] []
      [⟨"img", "a", 0, .response 500 7 []⟩]
      (by intro s hs; rcases List.mem_singleton.mp hs with rfl; decide)
      (by intro s hs; rcases List.mem_singleton.mp hs with rfl; decide)
  exact ⟨h.1, h.2.2.2.2.2.2.1⟩

/-- C2 counterexample: with an empty cross-space mapping (so the sample's local
index 0 has no entry), a scored sample is counted in the denominator as
incorrect — `total = 1`, `correct = 0` — instead of being kept out of both
counts in a separate unscoreable bucket (no such bucket exists in the code). -/
theorem C2_counterexample :
    trueImagenetIdx [] 0 = -1 ∧
    (runWM [] [⟨"i", "c", 0, .response 200 3 [("logits", [1])]⟩]).total = 1 ∧
    (runWM [] [⟨"i", "c", 0, .response 200 3 [("logits", [1])]⟩]).correct = 0 ∧
    (runWM [] [⟨"i", "c", 0, .response 200 3 [("logits", [1])]⟩]).classTotal "c" = 1 := by
  exact ⟨by decide, by decide, by decide, by decide⟩

/-- C2 amended: a local label index missing from the mapping resolves to the
sentinel -1, which is distinct from index 0 (never a silent default to class
0); but the sample is NOT diverted to a separate unscoreable count: the
predicted `argmax` index is a natural number, never equal to -1, so every
scored unmapped sample is counted as incorrect inside the accuracy
denominator (total and its class bucket grow, correct does not). -/
theorem C2_unmapped_sentinel_counted_incorrect (m : List (String × Int)) (acc : WMAcc)
    (s : WMSample) (lat : ℚ) (outs : List (String × List ℚ)) (data : List ℚ) (p : Nat)
    (hmiss : dictGet? m (toString s.trueClassIdx) = none)
    (hout : s.outcome = .response 200 lat outs)
    (hfind : findOutput outs = some data)
    (hmax : argmax? data = some p) :
    trueImagenetIdx m s.trueClassIdx = -1 ∧
    (-1 : Int) ≠ 0 ∧
    (wmStep m acc s).total = acc.total + 1 ∧
    (wmStep m acc s).correct = acc.correct ∧
    (wmStep m acc s).classTotal s.trueClassId = acc.classTotal s.trueClassId + 1 ∧
    (wmStep m acc s).classCorrect s.trueClassId = acc.classCorrect s.trueClassId := by
  have hti : trueImagenetIdx m s.trueClassIdx = -1 := by
    rw [trueImagenetIdx, dictGetD, hmiss]
    rfl
  have hne : ((p : Int) == (-1 : Int)) = false := by
    rw [beq_eq_false_iff_ne]
    omega
  have hsc : wmScored s = true := by simp [wmScored, hout, hfind, hmax]
  have hnc : wmCorrectB m s = false := by simp [wmCorrectB, hout, hfind, hmax, hti, hne]
  obtain ⟨e1, e2, _⟩ := wmStep_counts m acc s
  obtain ⟨f1, f2⟩ := wmStep_classCounts m acc s s.trueClassId
  refine ⟨hti, by decide, ?_, ?_, ?_, ?_⟩
  · rw [e1, hsc]; rfl
  · rw [e2, hnc]; rfl
  · rw [f1]; simp [hsc]
  · rw [f2]; simp [hnc]

/-- Witness for C2 at a concrete unmapped scored sample. -/
theorem C2_unmapped_sentinel_witness :
    (wmStep [] wmInit ⟨"i", "c", 0, .response 200 3 [("logits", [1])]⟩).total
        = wmInit.total + 1 ∧
    (wmStep [] wmInit ⟨"i", "c", 0, .response 200 3 [("logits", [1])]⟩).correct
        = wmInit.correct := by
  have h := C2_unmapped_sentinel_counted_incorrect [] wmInit
      ⟨"i", "c", 0, .response 200 3 [("logits", [1])]⟩ 3 [("logits", [1])] [1] 0
      (by decide) rfl (by decide) (by decide)
  exact ⟨h.2.2.1, h.2.2.2.1⟩

/-- C10: every request that received an HTTP response contributes exactly one
latency measurement — the latency is appended before the status check — so the
latency list length equals the number of responded requests, requests with a
non-success status leave all correctness counters unchanged while their
latency stays recorded, and the report's latency percentiles are computed over
this full latency list. -/
theorem C10_latency_recorded_before_status (ts : List T5Sample) (m : List (String × Int))
    (ws : List WMSample) (acc : T5Acc) (accw : WMAcc) (s : T5Sample) (sw : WMSample)
    (st stw : Nat) (lat latw : ℚ) (outs outsw : List (String × List ℚ))
    (hout : s.outcome = .response st lat outs) (houtw : sw.outcome = .response stw latw outsw) :
    (runT5 ts).latencies.length = ts.countP T5Sample.gotResponse ∧
    (runWM m ws).latencies.length = ws.countP WMSample.gotResponse ∧
    (t5Step acc s).latencies = acc.latencies ++ [lat] ∧
    (wmStep m accw sw).latencies = accw.latencies ++ [latw] ∧
    (st ≠ 200 → (t5Step acc s).total = acc.total ∧
      (t5Step acc s).top1Correct = acc.top1Correct ∧
      (t5Step acc s).top5Correct = acc.top5Correct) ∧
    (t5Finalize (runT5 ts) 1).p95LatencyMs
      = (if (runT5 ts).latencies ≠ [] then npPercentile (runT5 ts).latencies 95 else 0) ∧
    (t5Finalize (runT5 ts) 1).p99LatencyMs
      = (if (runT5 ts).latencies ≠ [] then npPercentile (runT5 ts).latencies 99 else 0) := by
  obtain ⟨_, _, _, hlen⟩ := runT5From_counts ts t5Init
  obtain ⟨_, _, wlen⟩ := runWMFrom_counts m ws wmInit
  refine ⟨by rw [runT5, hlen]; simp [t5Init], by rw [runWM, wlen]; simp [wmInit],
    t5Step_latency_appended acc s st lat outs hout,
    wmStep_latency_appended m accw sw stw latw outsw houtw, ?_, rfl, rfl⟩
  intro hst
  rcases s with ⟨i, cid, cix, o⟩
  cases hout
  simp [t5Step, hst]

/-- Witness for C10: a concrete HTTP 500 response records its latency and
changes no counter. -/
theorem C10_latency_recorded_witness :
    (t5Step t5Init ⟨"i", "c", 0, .response 500 3 []⟩).latencies
        = t5Init.latencies ++ [3] ∧
    (t5Step t5Init ⟨"i", "c", 0, .response 500 3 []⟩).total = t5Init.total := by
  have h := C10_latency_recorded_before_status [] [] [] t5Init wmInit
      ⟨"i", "c", 0, .response 500 3 []⟩ ⟨"i", "c", 0, .response 500 3 []⟩
      500 500 3 3 [] [] rfl rfl
  exact ⟨h.2.2.1, (h.2.2.2.2.1 (by decide)).1⟩

/-- Effect of one `evaluate_accuracy.py` iteration on the scalar counters. -/
theorem acStep_counts (cm : List (String × String)) (acc : ACAcc) (s : ACSample) :
    (acStep cm acc s).total = acc.total + (if acScored s then 1 else 0) ∧
    (acStep cm acc s).correct = acc.correct + (if acCorrectB s then 1 else 0) := by
  rcases s with ⟨i, tc, o⟩
  cases o with
  | preprocessFail => simp [acStep, acScored, acCorrectB]
  | inferRaised => simp [acStep, acScored, acCorrectB]
  | output data =>
      cases hm : argmax? data with
      | none => simp [acStep, acScored, acCorrectB, hm]
      | some p =>
          cases hc : (toString p == tc) <;> simp [acStep, acScored, acCorrectB, hm, hc]

/-- Effect of one `evaluate_accuracy.py` iteration on the per-class counters at
one class key. -/
theorem acStep_classCounts (cm : List (String × String)) (acc : ACAcc) (s : ACSample)
    (c : String) :
    (acStep cm acc s).classTotal c
      = acc.classTotal c + (if acScored s ∧ c = s.trueClass then 1 else 0) ∧
    (acStep cm acc s).classCorrect c
      = acc.classCorrect c + (if acCorrectB s ∧ c = s.trueClass then 1 else 0) := by
  rcases s with ⟨i, tc, o⟩
  cases o with
  | preprocessFail => simp [acStep, acScored, acCorrectB]
  | inferRaised => simp [acStep, acScored, acCorrectB]
  | output data =>
      cases hm : argmax? data with
      | none => simp [acStep, acScored, acCorrectB, hm]
      | some p =>
          cases hc : (toString p == tc) <;> by_cases hcc : c = tc <;>
            simp [acStep, acScored, acCorrectB, hm, hc, bump, hcc]

/-- Scalar counters of a whole `evaluate_accuracy.py` run. -/
theorem runACFrom_counts (cm : List (String × String)) (samples : List ACSample)
    (acc : ACAcc) :
    (runACFrom cm acc samples).total = acc.total + samples.countP acScored ∧
    (runACFrom cm acc samples).correct = acc.correct + samples.countP acCorrectB := by
  induction samples generalizing acc with
  | nil => simp [runACFrom]
  | cons s rest ih =>
      have hstep := acStep_counts cm acc s
      have hrest := ih (acStep cm acc s)
      rw [runACFrom, List.foldl_cons]
      rw [runACFrom] at hrest
      constructor <;> simp only [List.countP_cons] <;> omega

/-- Per-class counters of a whole `evaluate_accuracy.py` run at one class key. -/
theorem runACFrom_classCounts (cm : List (String × String)) (samples : List ACSample)
    (acc : ACAcc) (c : String) :
    (runACFrom cm acc samples).classTotal c
      = acc.classTotal c + samples.countP (fun s => acScored s && decide (c = s.trueClass)) ∧
    (runACFrom cm acc samples).classCorrect c
      = acc.classCorrect c
        + samples.countP (fun s => acCorrectB s && decide (c = s.trueClass)) := by
  induction samples generalizing acc with
  | nil => simp [runACFrom]
  | cons s rest ih =>
      have hstep := acStep_classCounts cm acc s c
      have hrest := ih (acStep cm acc s)
      rw [runACFrom, List.foldl_cons]
      rw [runACFrom] at hrest
      obtain ⟨e1, e2⟩ := hstep
      obtain ⟨f1, f2⟩ := hrest
      constructor <;>
        simp only [List.countP_cons, Bool.and_eq_true, decide_eq_true_eq, f1, f2, e1, e2] <;>
        by_cases hw : acScored s = true <;> by_cases hv : acCorrectB s = true <;>
        by_cases hcc : c = s.trueClass <;> simp [hw, hv, hcc] <;> omega

/-- A sample counted correct by `evaluate_with_mapping.py` is scored. -/
theorem wmCorrectB_imp_scored (m : List (String × Int)) (s : WMSample)
    (h : wmCorrectB m s = true) : wmScored s = true := by
  rcases s with ⟨i, cid, cix, o⟩
  cases o with
  | preprocessFail => simp [wmCorrectB] at h
  | requestRaised => simp [wmCorrectB] at h
  | response st lat outs =>
      cases hf : findOutput outs with
      | none => simp [wmCorrectB, hf] at h
      | some data =>
          cases hm : argmax? data with
          | none => simp [wmCorrectB, hf, hm] at h
          | some p =>
              rw [wmCorrectB] at h
              rw [wmScored]
              simp only [hf, hm, Bool.and_eq_true] at h ⊢
              exact ⟨h.1, rfl⟩

/-- A sample counted correct by `evaluate_accuracy.py` is scored. -/
theorem acCorrectB_imp_scored (s : ACSample) (h : acCorrectB s = true) :
    acScored s = true := by
  rcases s with ⟨i, tc, o⟩
  cases o with
  | preprocessFail => simp [acCorrectB] at h
  | inferRaised => simp [acCorrectB] at h
  | output data =>
      cases hm : argmax? data with
      | none => simp [acCorrectB, hm] at h
      | some p => simp [acScored, hm]

/-- The class ids of the samples of `evaluate_with_mapping.py` that reach the
scoring block, in processing order. -/
def wmScoredClasses (samples : List WMSample) : List String :=
  (samples.filter (fun s => wmScored s)).map (fun s => s.trueClassId)

/-- The class ids of the samples of `evaluate_accuracy.py` that reach the
scoring block, in processing order. -/
def acScoredClasses (samples : List ACSample) : List String :=
  (samples.filter (fun s => acScored s)).map (fun s => s.trueClass)

/-- Occurrences of a class among the scored classes of a
`evaluate_with_mapping.py` run. -/
theorem count_wmScoredClasses (samples : List WMSample) (c : String) :
    (wmScoredClasses samples).count c
      = samples.countP (fun s => wmScored s && decide (c = s.trueClassId)) := by
  rw [wmScoredClasses, List.count_eq_countP, List.countP_map, List.countP_filter]
  refine List.countP_congr ?_
  intro s hs
  simp only [Function.comp_apply, Bool.and_eq_true, beq_iff_eq, decide_eq_true_eq]
  constructor
  · rintro ⟨h1, h2⟩
    exact ⟨h2, h1.symm⟩
  · rintro ⟨h1, h2⟩
    exact ⟨h2.symm, h1⟩

/-- Occurrences of a class among the scored classes of an
`evaluate_accuracy.py` run. -/
theorem count_acScoredClasses (samples : List ACSample) (c : String) :
    (acScoredClasses samples).count c
      = samples.countP (fun s => acScored s && decide (c = s.trueClass)) := by
  rw [acScoredClasses, List.count_eq_countP, List.countP_map, List.countP_filter]
  refine List.countP_congr ?_
  intro s hs
  simp only [Function.comp_apply, Bool.and_eq_true, beq_iff_eq, decide_eq_true_eq]
  constructor
  · rintro ⟨h1, h2⟩
    exact ⟨h2, h1.symm⟩
  · rintro ⟨h1, h2⟩
    exact ⟨h2.symm, h1⟩

/-- The number of scored samples of a `evaluate_with_mapping.py` run. -/
theorem length_wmScoredClasses (samples : List WMSample) :
    (wmScoredClasses samples).length = samples.countP wmScored := by
  rw [wmScoredClasses, List.length_map, ← List.countP_eq_length_filter]

/-- The number of scored samples of an `evaluate_accuracy.py` run. -/
theorem length_acScoredClasses (samples : List ACSample) :
    (acScoredClasses samples).length = samples.countP acScored := by
  rw [acScoredClasses, List.length_map, ← List.countP_eq_length_filter]

/-- C9: in both per-class drivers, after processing any sample list the
accumulated counters satisfy `correct ≤ total`, per class
`class_correct[c] ≤ class_total[c]`, and the per-class totals over the classes
actually scored sum to the overall total — each scored sample increments
exactly one class bucket together with the overall total. -/
theorem C9_counter_invariants (m : List (String × Int)) (ws : List WMSample)
    (cm : List (String × String)) (ys : List ACSample) :
    (runWM m ws).correct ≤ (runWM m ws).total ∧
    (∀ c, (runWM m ws).classCorrect c ≤ (runWM m ws).classTotal c) ∧
    ((wmScoredClasses ws).dedup.map (fun c => (runWM m ws).classTotal c)).sum
      = (runWM m ws).total ∧
    (runAC cm ys).correct ≤ (runAC cm ys).total ∧
    (∀ c, (runAC cm ys).classCorrect c ≤ (runAC cm ys).classTotal c) ∧
    ((acScoredClasses ys).dedup.map (fun c => (runAC cm ys).classTotal c)).sum
      = (runAC cm ys).total := by
  obtain ⟨wt, wc, _⟩ := runWMFrom_counts m ws wmInit
  obtain ⟨at2, ac2⟩ := runACFrom_counts cm ys acInit
  have hwt : (runWM m ws).total = ws.countP wmScored := by
    rw [runWM, wt]; simp [wmInit]
  have hwc : (runWM m ws).correct = ws.countP (wmCorrectB m) := by
    rw [runWM, wc]; simp [wmInit]
  have hat : (runAC cm ys).total = ys.countP acScored := by
    rw [runAC, at2]; simp [acInit]
  have hac : (runAC cm ys).correct = ys.countP acCorrectB := by
    rw [runAC, ac2]; simp [acInit]
  have hwct : ∀ c, (runWM m ws).classTotal c = (wmScoredClasses ws).count c := by
    intro c
    rw [runWM, (runWMFrom_classCounts m ws wmInit c).1, count_wmScoredClasses]
    simp [wmInit]
  have hwcc : ∀ c, (runWM m ws).classCorrect c
      = ws.countP (fun s => wmCorrectB m s && decide (c = s.trueClassId)) := by
    intro c
    rw [runWM, (runWMFrom_classCounts m ws wmInit c).2]
    simp [wmInit]
  have hact : ∀ c, (runAC cm ys).classTotal c = (acScoredClasses ys).count c := by
    intro c
    rw [runAC, (runACFrom_classCounts cm ys acInit c).1, count_acScoredClasses]
    simp [acInit]
  have hacc : ∀ c, (runAC cm ys).classCorrect c
      = ys.countP (fun s => acCorrectB s && decide (c = s.trueClass)) := by
    intro c
    rw [runAC, (runACFrom_classCounts cm ys acInit c).2]
    simp [acInit]
  refine ⟨?_, ?_, ?_, ?_, ?_, ?_⟩
  · rw [hwt, hwc]
    exact List.countP_mono_left (fun s _ h => wmCorrectB_imp_scored m s h)
  · intro c
    rw [hwcc c, hwct c, count_wmScoredClasses]
    refine List.countP_mono_left ?_
    intro s _ h
    rw [Bool.and_eq_true] at h ⊢
    exact ⟨wmCorrectB_imp_scored m s h.1, h.2⟩
  · have hmap : (wmScoredClasses ws).dedup.map (fun c => (runWM m ws).classTotal c)
        = (wmScoredClasses ws).dedup.map (fun c => (wmScoredClasses ws).count c) :=
      List.map_congr_left (fun c _ => hwct c)
    rw [hmap, List.sum_map_count_dedup_eq_length, length_wmScoredClasses, hwt]
  · rw [hat, hac]
    exact List.countP_mono_left (fun s _ h => acCorrectB_imp_scored s h)
  · intro c
    rw [hacc c, hact c, count_acScoredClasses]
    refine List.countP_mono_left ?_
    intro s _ h
    rw [Bool.and_eq_true] at h ⊢
    exact ⟨acCorrectB_imp_scored s h.1, h.2⟩
  · have hmap : (acScoredClasses ys).dedup.map (fun c => (runAC cm ys).classTotal c)
        = (acScoredClasses ys).dedup.map (fun c => (acScoredClasses ys).count c) :=
      List.map_congr_left (fun c _ => hact c)
    rw [hmap, List.sum_map_count_dedup_eq_length, length_acScoredClasses, hat]

/-- The argsort comparison is transitive. -/
theorem argsortLe_trans (l : List ℚ) (a b c : Nat)
    (h1 : argsortLe l a b = true) (h2 : argsortLe l b c = true) :
    argsortLe l a c = true := by
  rw [argsortLe, decide_eq_true_eq] at h1 h2 ⊢
  rcases h1 with h1 | ⟨e1, le1⟩ <;> rcases h2 with h2 | ⟨e2, le2⟩
  · exact Or.inl (lt_trans h1 h2)
  · exact Or.inl (e2 ▸ h1)
  · exact Or.inl (e1 ▸ h2)
  · exact Or.inr ⟨e1.trans e2, le1.trans le2⟩

/-- The argsort comparison is total. -/
theorem argsortLe_total (l : List ℚ) (a b : Nat) :
    argsortLe l a b = true ∨ argsortLe l b a = true := by
  rw [argsortLe, argsortLe, decide_eq_true_eq, decide_eq_true_eq]
  rcases lt_trichotomy (valAt l a) (valAt l b) with h | h | h
  · exact Or.inl (Or.inl h)
  · rcases Nat.le_total a b with hab | hab
    · exact Or.inl (Or.inr ⟨h, hab⟩)
    · exact Or.inr (Or.inr ⟨h.symm, hab⟩)
  · exact Or.inr (Or.inl h)

/-- The argsort output is sorted for the argsort comparison. -/
theorem argsort_sorted (l : List ℚ) :
    (argsort l).Pairwise (fun i j => argsortLe l i j = true) := by
  haveI : IsTotal Nat (fun i j => argsortLe l i j = true) := ⟨argsortLe_total l⟩
  haveI : IsTrans Nat (fun i j => argsortLe l i j = true) := ⟨argsortLe_trans l⟩
  exact List.sorted_insertionSort _ _

/-- The argsort output is a permutation of the index range. -/
theorem argsort_perm (l : List ℚ) : (argsort l).Perm (List.range l.length) :=
  List.perm_insertionSort _ _

/-- The argsort output has no duplicate indices. -/
theorem argsort_nodup (l : List ℚ) : (argsort l).Nodup :=
  (argsort_perm l).symm.nodup (List.nodup_range l.length)

/-- Distinct indices in argsort order satisfy the strict lexicographic order:
ascending by value, equal values by ascending index. -/
theorem argsort_pairwise_strict (l : List ℚ) :
    (argsort l).Pairwise
      (fun i j => valAt l i < valAt l j ∨ (valAt l i = valAt l j ∧ i < j)) := by
  have h := (argsort_sorted l).and (argsort_nodup l)
  refine h.imp ?_
  rintro a b ⟨hle, hne⟩
  rw [argsortLe, decide_eq_true_eq] at hle
  rcases hle with h1 | ⟨he, hle2⟩
  · exact Or.inl h1
  · exact Or.inr ⟨he, lt_of_le_of_ne hle2 hne⟩

/-- C3 corrected: the top-5 list consists of (up to) five distinct in-bounds
indices ordered by strictly DESCENDING output value, with equal output values
ordered by DESCENDING index (the ascending stable argsort is reversed, which
flips the tie order); and the code judges top-5 correctness by comparing
indices MODULO 1000, not by literal membership of the ground-truth index. -/
theorem C3_top5_ranking_properties (l : List ℚ) (g : Nat) :
    (top5Indices l).length = min 5 l.length ∧
    (∀ i ∈ top5Indices l, i < l.length) ∧
    (top5Indices l).Pairwise
      (fun i j => valAt l j < valAt l i ∨ (valAt l i = valAt l j ∧ j < i)) ∧
    (isTop5Correct l g = true ↔ ∃ i ∈ top5Indices l, i % 1000 = g % 1000) := by
  refine ⟨?_, ?_, ?_, ?_⟩
  · rw [top5Indices, List.length_take, List.length_reverse, argsort,
      List.length_insertionSort, List.length_range]
  · intro i hi
    have h1 : i ∈ (argsort l).reverse := List.mem_of_mem_take hi
    have h2 : i ∈ argsort l := List.mem_reverse.mp h1
    exact List.mem_range.mp ((argsort_perm l).mem_iff.mp h2)
  · have hrev : ((argsort l).reverse).Pairwise
        (fun i j => valAt l j < valAt l i ∨ (valAt l i = valAt l j ∧ j < i)) := by
      rw [List.pairwise_reverse]
      refine (argsort_pairwise_strict l).imp ?_
      rintro a b (h1 | ⟨he, hl⟩)
      · exact Or.inl h1
      · exact Or.inr ⟨he.symm, hl⟩
    exact List.Pairwise.sublist (List.take_sublist 5 _) hrev
  · rw [isTop5Correct, decide_eq_true_eq]
    constructor
    · intro h
      rcases List.mem_map.mp h with ⟨i, hi, he⟩
      exact ⟨i, hi, he⟩
    · rintro ⟨i, hi, he⟩
      exact List.mem_map.mpr ⟨i, hi, he⟩

/-- C3 counterexample: for the output vector `[9, 9, 8, 7, 6]` the computed
top-5 ranking is `[1, 0, 2, 3, 4]`: the two equal-valued indices 0 and 1
appear in DESCENDING index order, refuting the claimed ascending tie order;
and with ground-truth index 1000 the code judges the sample top-5 correct
(1000 ≡ 0 (mod 1000) matches index 0) even though 1000 is not among the five
indices, refuting the claimed membership criterion. -/
theorem C3_counterexample :
    top5Indices [9, 9, 8, 7, 6] = [1, 0, 2, 3, 4] ∧
    valAt [9, 9, 8, 7, 6] 0 = valAt [9, 9, 8, 7, 6] 1 ∧
    scoreTop5 [9, 9, 8, 7, 6] 1000 = some (false, true) ∧
    (1000 : Nat) ∉ top5Indices [9, 9, 8, 7, 6] := by
  exact ⟨by decide, by decide, by decide, by decide⟩

end Ecrl
